import Mathlib

set_option maxHeartbeats 1000000

/-!
Shallow embedding of the hockey signup / team-balancing application:
the Express routes of `src/server.ts` acting on the `current_game`
table, and the client-side logic (signup capacity guard, the
shuffle-and-split team balancing, the manual team toggle and the
websocket state reducer) of the React component.

The `current_game` table is modelled as a `List GamePlayer` (rows in
insertion order); websocket broadcasts are collected in a
`List WsMessage`.  Route handlers return the new table contents, the
list of broadcast messages, and the HTTP response payload.
-/

inductive Position where
  | forward
  | defense
  | goalie
  deriving DecidableEq

inductive Team where
  | red
  | blue
  | none
  deriving DecidableEq

/-- A row of the `current_game` table / an element of the client's
`gamePlayers` projection (`GamePlayer` in `types.ts`). -/
structure GamePlayer where
  id : Nat
  name : String
  position : Position
  team : Team
  deriving DecidableEq

/-- One element of the `teams` array sent to `POST /api/current-game/split`:
`{ id, team }`. -/
structure TeamUpdate where
  id : Nat
  team : Team
  deriving DecidableEq

/-- The wire messages of `types.ts` (`WebSocketMessage`):
SIGNUP_UPDATE, SIGNUP_REMOVED, TEAMS_UPDATED, GAME_RESET. -/
inductive WsMessage where
  | signupUpdate (data : GamePlayer)
  | signupRemoved (id : Nat)
  | teamsUpdated
  | gameReset
  deriving DecidableEq

/-- Outcome of a signup attempt: the JSON payload on success, the 400
duplicate error of the server, or the client-side capacity alert. -/
inductive SignupResult where
  | ok (p : GamePlayer)
  | duplicate
  | capacityAlert
  deriving DecidableEq

def idsOf (l : List GamePlayer) : List Nat := l.map GamePlayer.id

/-- `POST /api/current-game/signup` (server.ts:65-78): reject when a row
with the same name exists, otherwise insert the new row (with the next
autoincrement id, passed in as `newId`) and broadcast SIGNUP_UPDATE. -/
def signupHandler (st : List GamePlayer) (nm : String) (pos : Position) (newId : Nat) :
    List GamePlayer × List WsMessage × SignupResult :=
  if st.any fun p => decide (p.name = nm) then
    (st, [], SignupResult.duplicate)
  else
    (st ++ [⟨newId, nm, pos, Team.none⟩],
      [WsMessage.signupUpdate ⟨newId, nm, pos, Team.none⟩],
      SignupResult.ok ⟨newId, nm, pos, Team.none⟩)

/-- `POST /api/current-game/remove` (server.ts:80-85): delete every row
with the given id, broadcast SIGNUP_REMOVED, answer success. -/
def removeHandler (st : List GamePlayer) (pid : Nat) :
    List GamePlayer × List WsMessage × Bool :=
  (st.filter fun p => decide (¬ p.id = pid), [WsMessage.signupRemoved pid], true)

/-- One `UPDATE current_game SET team = ? WHERE id = ?` statement. -/
def applyUpdate (st : List GamePlayer) (u : TeamUpdate) : List GamePlayer :=
  st.map fun p => if p.id = u.id then { p with team := u.team } else p

def applyUpdates (st : List GamePlayer) (us : List TeamUpdate) : List GamePlayer :=
  us.foldl applyUpdate st

/-- `POST /api/current-game/split` (server.ts:87-100): run all updates in
a transaction, broadcast TEAMS_UPDATED, answer success. -/
def splitHandler (st : List GamePlayer) (teams : List TeamUpdate) :
    List GamePlayer × List WsMessage × Bool :=
  (applyUpdates st teams, [WsMessage.teamsUpdated], true)

/-- `POST /api/current-game/reset` (server.ts:102-106): delete all rows,
broadcast GAME_RESET, answer success. -/
def resetHandler (_st : List GamePlayer) : List GamePlayer × List WsMessage × Bool :=
  ([], [WsMessage.gameReset], true)

/-- Team of the first row with the given id (`.find`-style lookup on the
client's projection), NULL/`unassigned` when absent. -/
def teamOf : List GamePlayer → Nat → Team
  | [], _ => Team.none
  | p :: ps, pid => if p.id = pid then p.team else teamOf ps pid

/-- Client `signUp`: refuses with an alert when 22 players are already
signed up, otherwise issues the signup request.  The client's
`gamePlayers` projection is modelled as the authoritative state. -/
def signUp (st : List GamePlayer) (nm : String) (pos : Position) (newId : Nat) :
    List GamePlayer × List WsMessage × SignupResult :=
  if 22 ≤ st.length then (st, [], SignupResult.capacityAlert)
  else signupHandler st nm pos newId

/-- The ternary chain of client `toggleTeam`:
red ↦ blue, blue ↦ null, otherwise (null) ↦ red. -/
def nextTeam : Team → Team
  | Team.red => Team.blue
  | Team.blue => Team.none
  | Team.none => Team.red

/-- Client `toggleTeam`: send a single `{id, team: nextTeam}` update
through the split route, using the participant's current team. -/
def toggleTeam (st : List GamePlayer) (pid : Nat) : List GamePlayer :=
  (splitHandler st [⟨pid, nextTeam (teamOf st pid)⟩]).1

/-- What the websocket reducer (`socket.onmessage`) does to the viewer's
projection: either patch it in place or fall back to a full refetch. -/
inductive ReducerStep where
  | patched (proj : List GamePlayer)
  | refetch
  deriving DecidableEq

/-- The reducer in `socket.onmessage`: SIGNUP_UPDATE appends unless the
id is already present, SIGNUP_REMOVED filters the id out, TEAMS_UPDATED
and GAME_RESET refetch the full snapshot. -/
def applyMessage (proj : List GamePlayer) : WsMessage → ReducerStep
  | WsMessage.signupUpdate d =>
      if proj.any fun p => decide (p.id = d.id) then ReducerStep.patched proj
      else ReducerStep.patched (proj ++ [d])
  | WsMessage.signupRemoved i =>
      ReducerStep.patched (proj.filter fun p => decide (¬ p.id = i))
  | WsMessage.teamsUpdated => ReducerStep.refetch
  | WsMessage.gameReset => ReducerStep.refetch

/-! ## Sample data used by witnesses and counterexamples -/

def alice : GamePlayer := ⟨1, "Alice", Position.defense, Team.none⟩

def bob : GamePlayer := ⟨2, "Bob", Position.forward, Team.none⟩

def gary : GamePlayer := ⟨3, "Gary", Position.goalie, Team.none⟩

def aliceName : String := "Alice"

def waldo : String := "Waldo"

/-- A full session of 22 participants with pairwise distinct names. -/
def players22 : List GamePlayer :=
  [⟨1, "P01", Position.forward, Team.none⟩, ⟨2, "P02", Position.forward, Team.none⟩,
   ⟨3, "P03", Position.forward, Team.none⟩, ⟨4, "P04", Position.forward, Team.none⟩,
   ⟨5, "P05", Position.forward, Team.none⟩, ⟨6, "P06", Position.forward, Team.none⟩,
   ⟨7, "P07", Position.forward, Team.none⟩, ⟨8, "P08", Position.forward, Team.none⟩,
   ⟨9, "P09", Position.forward, Team.none⟩, ⟨10, "P10", Position.forward, Team.none⟩,
   ⟨11, "P11", Position.forward, Team.none⟩, ⟨12, "P12", Position.forward, Team.none⟩,
   ⟨13, "P13", Position.defense, Team.none⟩, ⟨14, "P14", Position.defense, Team.none⟩,
   ⟨15, "P15", Position.defense, Team.none⟩, ⟨16, "P16", Position.defense, Team.none⟩,
   ⟨17, "P17", Position.defense, Team.none⟩, ⟨18, "P18", Position.defense, Team.none⟩,
   ⟨19, "P19", Position.defense, Team.none⟩, ⟨20, "P20", Position.defense, Team.none⟩,
   ⟨21, "P21", Position.goalie, Team.none⟩, ⟨22, "P22", Position.goalie, Team.none⟩]

def players21 : List GamePlayer := players22.take 21

/-! ## Basic lemmas about updates and lookups -/

theorem idsOf_applyUpdate (st : List GamePlayer) (u : TeamUpdate) :
    idsOf (applyUpdate st u) = idsOf st := by
  unfold idsOf applyUpdate
  rw [List.map_map]
  congr 1
  funext p
  by_cases h : p.id = u.id <;> simp [h]

theorem teamOf_applyUpdate (st : List GamePlayer) (u : TeamUpdate) (pid : Nat) :
    teamOf (applyUpdate st u) pid =
      if pid = u.id ∧ pid ∈ idsOf st then u.team else teamOf st pid := by
  induction st with
  | nil => simp [applyUpdate, teamOf, idsOf]
  | cons p ps ih =>
    have hstep : applyUpdate (p :: ps) u =
        (if p.id = u.id then { p with team := u.team } else p) :: applyUpdate ps u := rfl
    rw [hstep]
    by_cases h1 : p.id = u.id
    · rw [if_pos h1]
      by_cases h2 : p.id = pid
      · have e1 : pid = u.id := by rw [← h2]; exact h1
        have hl : teamOf ({ p with team := u.team } :: applyUpdate ps u) pid = u.team := by
          simp [teamOf, h2]
        rw [hl, if_pos ⟨e1, by simp [idsOf, ← h2]⟩]
      · have hl : teamOf ({ p with team := u.team } :: applyUpdate ps u) pid
            = teamOf (applyUpdate ps u) pid := by
          simp [teamOf, h2]
        rw [hl, ih]
        have e2 : ¬ pid = p.id := fun e => h2 e.symm
        simp [idsOf, e2, teamOf, h2]
    · rw [if_neg h1]
      by_cases h2 : p.id = pid
      · have e1 : ¬ pid = u.id := by rw [← h2]; exact h1
        simp [teamOf, h2, e1]
      · have hl : teamOf (p :: applyUpdate ps u) pid = teamOf (applyUpdate ps u) pid := by
          simp [teamOf, h2]
        rw [hl, ih]
        have e2 : ¬ pid = p.id := fun e => h2 e.symm
        simp [idsOf, e2, teamOf, h2]

theorem toggleTeam_eq (st : List GamePlayer) (pid : Nat) :
    toggleTeam st pid = applyUpdate st ⟨pid, nextTeam (teamOf st pid)⟩ := rfl

theorem idsOf_toggleTeam (st : List GamePlayer) (pid : Nat) :
    idsOf (toggleTeam st pid) = idsOf st := by
  rw [toggleTeam_eq, idsOf_applyUpdate]

theorem teamOf_toggleTeam (st : List GamePlayer) (pid : Nat) (h : pid ∈ idsOf st) :
    teamOf (toggleTeam st pid) pid = nextTeam (teamOf st pid) := by
  rw [toggleTeam_eq, teamOf_applyUpdate]
  simp [h]

/-! ## Claim theorems: manual override, reset, signup errors, remove, viewer -/

/-- C5: each manual override invocation advances the participant's team
exactly one step along the cycle unassigned → red → blue → unassigned;
three successive overrides on an unassigned participant give the
sequence red, blue, unassigned. -/
theorem toggle_cycle (st : List GamePlayer) (pid : Nat) (h : pid ∈ idsOf st) :
    (nextTeam Team.none = Team.red ∧ nextTeam Team.red = Team.blue ∧
        nextTeam Team.blue = Team.none) ∧
    teamOf (toggleTeam st pid) pid = nextTeam (teamOf st pid) ∧
    (teamOf st pid = Team.none →
      teamOf (toggleTeam st pid) pid = Team.red ∧
      teamOf (toggleTeam (toggleTeam st pid) pid) pid = Team.blue ∧
      teamOf (toggleTeam (toggleTeam (toggleTeam st pid) pid) pid) pid = Team.none) := by
  have h1 : pid ∈ idsOf (toggleTeam st pid) := by rw [idsOf_toggleTeam]; exact h
  have h2 : pid ∈ idsOf (toggleTeam (toggleTeam st pid) pid) := by
    rw [idsOf_toggleTeam]; exact h1
  refine ⟨⟨rfl, rfl, rfl⟩, teamOf_toggleTeam st pid h, ?_⟩
  intro h0
  have e1 : teamOf (toggleTeam st pid) pid = Team.red := by
    rw [teamOf_toggleTeam st pid h, h0]; rfl
  have e2 : teamOf (toggleTeam (toggleTeam st pid) pid) pid = Team.blue := by
    rw [teamOf_toggleTeam _ pid h1, e1]; rfl
  have e3 : teamOf (toggleTeam (toggleTeam (toggleTeam st pid) pid) pid) pid = Team.none := by
    rw [teamOf_toggleTeam _ pid h2, e2]; rfl
  exact ⟨e1, e2, e3⟩

/-- C5 witness: a concrete unassigned goalie cycles red, blue, unassigned. -/
theorem toggle_cycle_witness :
    teamOf (toggleTeam [gary] 3) 3 = Team.red ∧
    teamOf (toggleTeam (toggleTeam [gary] 3) 3) 3 = Team.blue ∧
    teamOf (toggleTeam (toggleTeam (toggleTeam [gary] 3) 3) 3) 3 = Team.none :=
  (toggle_cycle [gary] 3 (by decide)).2.2 (by decide)

/-- C6: a manual override on one participant leaves every other
participant of the session (its id, name, position and team) unchanged,
and preserves the session's length. -/
theorem toggle_frame (st : List GamePlayer) (pid : Nat) (i : Nat)
    (h1 : i < st.length) (h2 : i < (toggleTeam st pid).length)
    (hne : ¬ (st.get ⟨i, h1⟩).id = pid) :
    (toggleTeam st pid).length = st.length ∧
    (toggleTeam st pid).get ⟨i, h2⟩ = st.get ⟨i, h1⟩ := by
  constructor
  · rw [toggleTeam_eq]
    simp [applyUpdate]
  · have hmap : toggleTeam st pid
        = st.map (fun p =>
            if p.id = pid then { p with team := nextTeam (teamOf st pid) } else p) := rfl
    rw [List.get_of_eq hmap]
    simp only [List.get_eq_getElem, Fin.coe_cast, List.getElem_map]
    exact if_neg (by simpa using hne)

/-- C6 witness: toggling participant 1 leaves participant 2 unchanged. -/
theorem toggle_frame_witness :
    (toggleTeam [alice, bob] 1).length = [alice, bob].length ∧
    (toggleTeam [alice, bob] 1).get ⟨1, by decide⟩ = [alice, bob].get ⟨1, by decide⟩ :=
  toggle_frame [alice, bob] 1 1 (by decide) (by decide) (by decide)

/-- C7: resetting twice yields an empty session after each application,
emits exactly one GAME_RESET message per application (two in total), and
both requests answer success. -/
theorem reset_idempotent (st : List GamePlayer) :
    (resetHandler st).1 = [] ∧
    (resetHandler (resetHandler st).1).1 = [] ∧
    (resetHandler st).2.1 ++ (resetHandler (resetHandler st).1).2.1 =
      [WsMessage.gameReset, WsMessage.gameReset] ∧
    ((resetHandler st).2.1 ++ (resetHandler (resetHandler st).1).2.1).length = 2 ∧
    (resetHandler st).2.2 = true ∧ (resetHandler (resetHandler st).1).2.2 = true := by
  simp [resetHandler]

/-- C8: a signup whose name is already present (whatever the position)
is rejected as a duplicate, the session is unchanged (size and
contents), and nothing is broadcast. -/
theorem signup_duplicate_rejected (st : List GamePlayer) (nm : String) (pos : Position)
    (newId : Nat) (h : ∃ p ∈ st, p.name = nm) :
    signupHandler st nm pos newId = (st, [], SignupResult.duplicate) := by
  have ha : (st.any fun p => decide (p.name = nm)) = true := by
    simpa [List.any_eq_true] using h
  simp [signupHandler, ha]

/-- C8 witness: Alice/forward after Alice/defense is rejected with no
state change and no broadcast. -/
theorem signup_duplicate_rejected_witness :
    signupHandler [alice, bob] aliceName Position.forward 3 =
      ([alice, bob], [], SignupResult.duplicate) :=
  signup_duplicate_rejected [alice, bob] aliceName Position.forward 3 (by decide)

/-- C10: the remove route always answers success and always broadcasts
SIGNUP_REMOVED with the requested id, even when no participant has that
id (in which case the session is unchanged). -/
theorem remove_always_broadcasts (st : List GamePlayer) (pid : Nat) :
    (removeHandler st pid).2.1 = [WsMessage.signupRemoved pid] ∧
    (removeHandler st pid).2.2 = true ∧
    ((∀ p ∈ st, ¬ p.id = pid) → (removeHandler st pid).1 = st) := by
  refine ⟨rfl, rfl, ?_⟩
  intro h
  simp only [removeHandler]
  refine List.filter_eq_self.2 ?_
  intro p hp
  simpa using h p hp

/-- C10 witness: removing an absent id broadcasts the event, answers
success, and deletes nothing. -/
theorem remove_always_broadcasts_witness :
    (removeHandler [alice] 99).2.1 = [WsMessage.signupRemoved 99] ∧
    (removeHandler [alice] 99).2.2 = true ∧
    (removeHandler [alice] 99).1 = [alice] := by
  obtain ⟨h1, h2, h3⟩ := remove_always_broadcasts [alice] 99
  exact ⟨h1, h2, h3 (by decide)⟩

/-- C9: the viewer reducer ignores a SIGNUP_UPDATE whose id is already
in the projection, and a SIGNUP_REMOVED whose id is absent leaves the
projection unchanged. -/
theorem viewer_reducer_idempotent (proj : List GamePlayer) (d : GamePlayer) (rid : Nat)
    (hdup : ∃ p ∈ proj, p.id = d.id) (habs : ∀ p ∈ proj, ¬ p.id = rid) :
    applyMessage proj (WsMessage.signupUpdate d) = ReducerStep.patched proj ∧
    applyMessage proj (WsMessage.signupRemoved rid) = ReducerStep.patched proj := by
  constructor
  · have ha : (proj.any fun p => decide (p.id = d.id)) = true := by
      simpa [List.any_eq_true] using hdup
    simp [applyMessage, ha]
  · simp only [applyMessage, ReducerStep.patched.injEq]
    refine List.filter_eq_self.2 ?_
    intro p hp
    simpa using habs p hp

/-- C9 witness: a duplicate add (same id, fresher data) and a removal of
an absent id are both no-ops on a concrete projection. -/
theorem viewer_reducer_idempotent_witness :
    applyMessage [alice] (WsMessage.signupUpdate ⟨1, "Alice", Position.forward, Team.red⟩) =
      ReducerStep.patched [alice] ∧
    applyMessage [alice] (WsMessage.signupRemoved 99) = ReducerStep.patched [alice] :=
  viewer_reducer_idempotent [alice] ⟨1, "Alice", Position.forward, Team.red⟩ 99
    (by decide) (by decide)

/-- C1 counterexample: with a full session of 22 distinctly-named
participants, the server-side signup route still accepts a 23rd signup
with a fresh name: the registry boundary enforces no capacity limit. -/
theorem capacity_not_enforced_at_server :
    players22.length = 22 ∧
    (players22.map GamePlayer.name).Nodup ∧
    (signupHandler players22 waldo Position.forward 23).1.length = 23 ∧
    (signupHandler players22 waldo Position.forward 23).2.2 =
      SignupResult.ok ⟨23, waldo, Position.forward, Team.none⟩ ∧
    (signupHandler players22 waldo Position.forward 23).2.1 =
      [WsMessage.signupUpdate ⟨23, waldo, Position.forward, Team.none⟩] := by
  refine ⟨by decide, by decide, by decide, by decide, by decide⟩

/-- C1 (amended): the 22-participant cap is enforced by the client-side
signUp guard, not by the server: when the session already holds 22 (or
more) participants the client refuses before any request is sent and the
state is unchanged; through the client path the session never exceeds
22; and with 21 participants a fresh-name signup succeeds, making 22. -/
theorem capacity_enforced_by_client (st : List GamePlayer) (nm : String) (pos : Position)
    (newId : Nat) :
    (22 ≤ st.length → signUp st nm pos newId = (st, [], SignupResult.capacityAlert)) ∧
    (st.length ≤ 22 → (signUp st nm pos newId).1.length ≤ 22) ∧
    (st.length = 21 → (∀ p ∈ st, ¬ p.name = nm) →
      signUp st nm pos newId =
        (st ++ [⟨newId, nm, pos, Team.none⟩],
         [WsMessage.signupUpdate ⟨newId, nm, pos, Team.none⟩],
         SignupResult.ok ⟨newId, nm, pos, Team.none⟩) ∧
      (signUp st nm pos newId).1.length = 22) := by
  refine ⟨?_, ?_, ?_⟩
  · intro h
    simp [signUp, h]
  · intro h
    by_cases hc : 22 ≤ st.length
    · simp only [signUp, if_pos hc]
      exact h
    · have hlt : st.length < 22 := Nat.lt_of_not_le hc
      by_cases hd : (st.any fun p => decide (p.name = nm)) = true
      · simp [signUp, hc, signupHandler, hd]
        omega
      · simp [signUp, hc, signupHandler, hd]
        omega
  · intro h21 hfresh
    have hc : ¬ 22 ≤ st.length := by omega
    have hd : (st.any fun p => decide (p.name = nm)) = false := by
      simp only [List.any_eq_false, decide_eq_true_eq]
      exact hfresh
    constructor
    · simp [signUp, hc, signupHandler, hd]
    · simp [signUp, hc, signupHandler, hd, h21]

/-- C1 amended witness: the 23rd client signup is refused with no state
change; the 22nd succeeds. -/
theorem capacity_enforced_by_client_witness :
    signUp players22 waldo Position.forward 23 = (players22, [], SignupResult.capacityAlert) ∧
    (signUp players21 waldo Position.forward 22).1.length = 22 := by
  obtain ⟨h1, _, _⟩ := capacity_enforced_by_client players22 waldo Position.forward 23
  obtain ⟨_, _, g3⟩ := capacity_enforced_by_client players21 waldo Position.forward 22
  exact ⟨h1 (by decide), (g3 (by decide) (by decide)).2⟩

/-! ## The shuffle used by splitTeams

The client shuffles each position pool with
`[...array].sort(() => Math.random() - 0.5)`: a comparison sort whose
comparator ignores its arguments and answers negative or positive with
probability 1/2 each (independent fair coins; the probability of an
exact 0 is negligible).  ECMAScript leaves the sorting algorithm of
`Array.prototype.sort` implementation-defined, so the sort itself is
modelled here as insertion sort, a standard comparison sort; the
comparator's successive answers are a stream of booleans (`true` =
negative, keep the first argument first), and all streams of a fixed
length are equally likely. -/

/-- Insert `x` into `r`, consuming one coin per comparator call. -/
def insertCmp (x : Nat) : List Nat → List Bool → List Nat × List Bool
  | [], cs => ([x], cs)
  | y :: ys, [] => (x :: y :: ys, [])
  | y :: ys, c :: cs =>
    if c then (x :: y :: ys, cs)
    else
      match insertCmp x ys cs with
      | (r, cs') => (y :: r, cs')

/-- Insertion sort driven by the comparator's coin stream. -/
def sortCmp : List Nat → List Bool → List Nat × List Bool
  | [], cs => ([], cs)
  | x :: xs, cs =>
    match sortCmp xs cs with
    | (r, cs') => insertCmp x r cs'

/-- The client `shuffle` under the comparator model: the ordering
produced from a given stream of comparator answers. -/
def shuffleModel (l : List Nat) (cs : List Bool) : List Nat := (sortCmp l cs).1

/-- All 2^n equally likely comparator-answer streams of length `n`. -/
def coinStreams : Nat → List (List Bool)
  | 0 => [[]]
  | n + 1 => (coinStreams n).map (List.cons true) ++ (coinStreams n).map (List.cons false)

/-- Number of length-`n` streams on which the shuffle of `l` yields `r`. -/
def outcomeCount (l r : List Nat) (n : Nat) : Nat :=
  ((coinStreams n).filter fun cs => decide (shuffleModel l cs = r)).length

/-- C2: the comparator-based shuffle is not a uniform permutation.  For
a pool of size 3, three comparator calls suffice, and over the 8 equally
likely comparator-answer streams the ordering 1,2,3 occurs twice
(probability 1/4) while 2,1,3 occurs once (probability 1/8) — a uniform
shuffle would give every ordering probability 1/6.  Doubling the stream
length doubles every count (4 and 2 out of 16), so the discrepancy is
not a truncation artifact. -/
theorem shuffle_not_uniform :
    (coinStreams 3).length = 8 ∧
    outcomeCount [1, 2, 3] [1, 2, 3] 3 = 2 ∧
    outcomeCount [1, 2, 3] [2, 1, 3] 3 = 1 ∧
    ¬ outcomeCount [1, 2, 3] [1, 2, 3] 3 = outcomeCount [1, 2, 3] [2, 1, 3] 3 ∧
    (coinStreams 4).length = 16 ∧
    outcomeCount [1, 2, 3] [1, 2, 3] 4 = 4 ∧
    outcomeCount [1, 2, 3] [2, 1, 3] 4 = 2 := by
  refine ⟨by decide, by decide, by decide, by decide, by decide, by decide, by decide⟩

/-! ## splitTeams: building the teams array

Client `splitTeams` filters the three position pools, shuffles each, and
builds the `teamsUpdate` array: one `{id, team: null}` entry per player
(the reset pass), then the slice assignments
goalie `[0]`→red, `[1]`→blue; defenders `slice(0,4)`→red,
`slice(4,8)`→blue; forwards `slice(0,6)`→red, `slice(6,12)`→blue, each
assignment mutating (`.find(...)`) the first entry with the matching id.
The shuffle outcome is an arbitrary permutation of the pool, so the
shuffled pools `sg`, `sd`, `sf` are taken as parameters and the theorems
quantify over all permutations. -/

def goaliesOf (players : List GamePlayer) : List GamePlayer :=
  players.filter fun p => decide (p.position = Position.goalie)

def defendersOf (players : List GamePlayer) : List GamePlayer :=
  players.filter fun p => decide (p.position = Position.defense)

def forwardsOf (players : List GamePlayer) : List GamePlayer :=
  players.filter fun p => decide (p.position = Position.forward)

/-- `teamsUpdate.find(u => u.id === pid)!.team = t`: mutate the first
entry with the given id (no-op when absent). -/
def setFirst (pid : Nat) (t : Team) : List TeamUpdate → List TeamUpdate
  | [] => []
  | u :: us => if u.id = pid then { u with team := t } :: us else u :: setFirst pid t us

/-- A `forEach` of `setFirst` assignments over a slice of a pool. -/
def assignAll (ps : List GamePlayer) (t : Team) (us : List TeamUpdate) : List TeamUpdate :=
  ps.foldl (fun acc p => setFirst p.id t acc) us

/-- The reset pass: `gamePlayers.forEach(p => teamsUpdate.push({id: p.id, team: null}))`. -/
def resetUpdates (players : List GamePlayer) : List TeamUpdate :=
  players.map fun p => { id := p.id, team := Team.none }

/-- The full `teamsUpdate` array built by `splitTeams` from the shuffled
pools `sg`, `sd`, `sf`. -/
def splitTeams (players sg sd sf : List GamePlayer) : List TeamUpdate :=
  assignAll ((sf.drop 6).take 6) Team.blue
    (assignAll (sf.take 6) Team.red
      (assignAll ((sd.drop 4).take 4) Team.blue
        (assignAll (sd.take 4) Team.red
          (assignAll ((sg.drop 1).take 1) Team.blue
            (assignAll (sg.take 1) Team.red (resetUpdates players))))))

/-- Session state after `splitTeams` posts its array to the split route. -/
def splitResult (players sg sd sf : List GamePlayer) : List GamePlayer :=
  (splitHandler players (splitTeams players sg sd sf)).1

/-- Team held by the first update entry with the given id. -/
def findTeam : List TeamUpdate → Nat → Team
  | [], _ => Team.none
  | u :: us, pid => if u.id = pid then u.team else findTeam us pid

def updIds (us : List TeamUpdate) : List Nat := us.map TeamUpdate.id

/-- The team the update array finally directs a given id to: the last
slice assignment containing the id wins. -/
def targetTeam (sg sd sf : List GamePlayer) (pid : Nat) : Team :=
  if pid ∈ idsOf ((sf.drop 6).take 6) then Team.blue
  else if pid ∈ idsOf (sf.take 6) then Team.red
  else if pid ∈ idsOf ((sd.drop 4).take 4) then Team.blue
  else if pid ∈ idsOf (sd.take 4) then Team.red
  else if pid ∈ idsOf ((sg.drop 1).take 1) then Team.blue
  else if pid ∈ idsOf (sg.take 1) then Team.red
  else Team.none

/-! ## Lemmas on the update array -/

theorem updIds_setFirst (pid : Nat) (t : Team) (us : List TeamUpdate) :
    updIds (setFirst pid t us) = updIds us := by
  induction us with
  | nil => rfl
  | cons u us ih =>
    by_cases h : u.id = pid
    · simp [setFirst, h, updIds]
    · simp only [updIds] at ih
      simp [setFirst, h, updIds, ih]

theorem findTeam_setFirst_ne (pid q : Nat) (t : Team) (us : List TeamUpdate)
    (h : ¬ q = pid) : findTeam (setFirst pid t us) q = findTeam us q := by
  have h' : ¬ pid = q := fun e => h e.symm
  induction us with
  | nil => rfl
  | cons u us ih =>
    by_cases h1 : u.id = pid
    · have h2 : ¬ u.id = q := by rw [h1]; exact h'
      simp [setFirst, h1, findTeam, h2, h']
    · by_cases h2 : u.id = q <;> simp [setFirst, h1, findTeam, h2, ih, h, h']

theorem findTeam_setFirst_mem (pid : Nat) (t : Team) (us : List TeamUpdate)
    (h : pid ∈ updIds us) : findTeam (setFirst pid t us) pid = t := by
  induction us with
  | nil => simp [updIds] at h
  | cons u us ih =>
    by_cases h1 : u.id = pid
    · simp [setFirst, h1, findTeam]
    · have h2 : pid ∈ updIds us := by
        simp only [updIds, List.map_cons, List.mem_cons] at h
        rcases h with h' | h'
        · exact absurd h'.symm h1
        · exact h'
      simp [setFirst, h1, findTeam, ih h2]

theorem setFirst_not_mem (pid : Nat) (t : Team) (us : List TeamUpdate)
    (h : ¬ pid ∈ updIds us) : setFirst pid t us = us := by
  induction us with
  | nil => rfl
  | cons u us ih =>
    have h1 : ¬ u.id = pid := by
      intro e
      exact h (by simp [updIds, e])
    have h2 : ¬ pid ∈ updIds us := by
      intro hm
      exact h (by simp [updIds] at hm ⊢; exact Or.inr hm)
    simp [setFirst, h1, ih h2]

theorem assignAll_cons (p : GamePlayer) (ps : List GamePlayer) (t : Team)
    (us : List TeamUpdate) :
    assignAll (p :: ps) t us = assignAll ps t (setFirst p.id t us) := rfl

theorem updIds_assignAll (ps : List GamePlayer) (t : Team) (us : List TeamUpdate) :
    updIds (assignAll ps t us) = updIds us := by
  induction ps generalizing us with
  | nil => rfl
  | cons p ps ih => rw [assignAll_cons, ih, updIds_setFirst]

theorem findTeam_assignAll (ps : List GamePlayer) (t : Team) (us : List TeamUpdate)
    (pid : Nat) :
    findTeam (assignAll ps t us) pid =
      if pid ∈ idsOf ps ∧ pid ∈ updIds us then t else findTeam us pid := by
  induction ps generalizing us with
  | nil => simp [assignAll, idsOf]
  | cons p ps ih =>
    rw [assignAll_cons, ih, updIds_setFirst]
    by_cases h2 : pid = p.id
    · subst h2
      by_cases hmem : p.id ∈ updIds us
      · by_cases hc : p.id ∈ idsOf ps ∧ p.id ∈ updIds us
        · rw [if_pos hc, if_pos ⟨by simp [idsOf], hmem⟩]
        · rw [if_neg hc, findTeam_setFirst_mem p.id t us hmem,
            if_pos ⟨by simp [idsOf], hmem⟩]
      · have hc1 : ¬ (p.id ∈ idsOf ps ∧ p.id ∈ updIds us) := fun hx => hmem hx.2
        have hc2 : ¬ (p.id ∈ idsOf (p :: ps) ∧ p.id ∈ updIds us) := fun hx => hmem hx.2
        rw [if_neg hc1, if_neg hc2, setFirst_not_mem p.id t us hmem]
    · rw [findTeam_setFirst_ne p.id pid t us h2]
      have he : (pid ∈ idsOf (p :: ps)) ↔ (pid ∈ idsOf ps) := by
        simp [idsOf, h2]
      by_cases hm : pid ∈ idsOf ps <;> by_cases hmem : pid ∈ updIds us <;>
        simp [hm, hmem, he]

theorem resetUpdates_cons (p : GamePlayer) (ps : List GamePlayer) :
    resetUpdates (p :: ps) = { id := p.id, team := Team.none } :: resetUpdates ps := rfl

theorem updIds_resetUpdates (players : List GamePlayer) :
    updIds (resetUpdates players) = idsOf players := by
  induction players with
  | nil => rfl
  | cons p ps ih => simp [resetUpdates_cons, updIds, idsOf] at ih ⊢; exact ih

theorem findTeam_resetUpdates (players : List GamePlayer) (pid : Nat) :
    findTeam (resetUpdates players) pid = Team.none := by
  induction players with
  | nil => rfl
  | cons p ps ih =>
    rw [resetUpdates_cons]
    by_cases h : p.id = pid <;> simp [findTeam, h, ih]

theorem updIds_splitTeams (players sg sd sf : List GamePlayer) :
    updIds (splitTeams players sg sd sf) = idsOf players := by
  unfold splitTeams
  rw [updIds_assignAll, updIds_assignAll, updIds_assignAll, updIds_assignAll,
    updIds_assignAll, updIds_assignAll, updIds_resetUpdates]

theorem findTeam_splitTeams (players sg sd sf : List GamePlayer) (pid : Nat)
    (h : pid ∈ idsOf players) :
    findTeam (splitTeams players sg sd sf) pid = targetTeam sg sd sf pid := by
  unfold splitTeams targetTeam
  rw [findTeam_assignAll, findTeam_assignAll, findTeam_assignAll, findTeam_assignAll,
    findTeam_assignAll, findTeam_assignAll, findTeam_resetUpdates]
  simp only [updIds_assignAll, updIds_resetUpdates]
  simp [h]

/-! ## Applying the update array to the session -/

theorem applyUpdates_cons (st : List GamePlayer) (u : TeamUpdate) (us : List TeamUpdate) :
    applyUpdates st (u :: us) = applyUpdates (applyUpdate st u) us := rfl

theorem applyUpdates_eq_map (us : List TeamUpdate) (st : List GamePlayer)
    (hnd : (updIds us).Nodup) :
    applyUpdates st us =
      st.map fun p =>
        if p.id ∈ updIds us then { p with team := findTeam us p.id } else p := by
  induction us generalizing st with
  | nil =>
    simp [applyUpdates, updIds]
  | cons u us ih =>
    have hcons : updIds (u :: us) = u.id :: updIds us := rfl
    rw [hcons] at hnd
    have hu : ¬ u.id ∈ updIds us := (List.nodup_cons.1 hnd).1
    have hnd2 : (updIds us).Nodup := (List.nodup_cons.1 hnd).2
    rw [applyUpdates_cons, ih (applyUpdate st u) hnd2]
    have hmap : applyUpdate st u =
        st.map fun p => if p.id = u.id then { p with team := u.team } else p := rfl
    rw [hmap, List.map_map]
    apply List.map_congr_left
    intro p _
    by_cases hpu : p.id = u.id
    · have hpid : ¬ p.id ∈ updIds us := by rw [hpu]; exact hu
      have hm : p.id ∈ updIds (u :: us) := by simp [updIds, hpu]
      have hft : findTeam (u :: us) p.id = u.team := by
        simp [findTeam, hpu.symm]
      simp only [Function.comp_apply]
      rw [if_pos hpu, if_pos hm, hft]
      rw [if_neg (by simpa using hpid)]
    · have hm : (p.id ∈ updIds (u :: us)) ↔ (p.id ∈ updIds us) := by
        simp [updIds, hpu]
      have hf : findTeam (u :: us) p.id = findTeam us p.id := by
        have hne : ¬ u.id = p.id := fun e => hpu e.symm
        simp [findTeam, hne]
      simp only [Function.comp_apply]
      rw [if_neg hpu]
      by_cases h2 : p.id ∈ updIds us
      · rw [if_pos h2, if_pos (hm.2 h2), hf]
      · rw [if_neg h2, if_neg (fun hx => h2 (hm.1 hx))]

/-- Master characterization: with pairwise-distinct ids, the split route
rewrites every participant's team to the team directed by the update
array, leaving id, name and position untouched. -/
theorem splitResult_eq_map (players sg sd sf : List GamePlayer)
    (hnd : (idsOf players).Nodup) :
    splitResult players sg sd sf =
      players.map fun p => { p with team := targetTeam sg sd sf p.id } := by
  have hids := updIds_splitTeams players sg sd sf
  have hnd' : (updIds (splitTeams players sg sd sf)).Nodup := by rw [hids]; exact hnd
  show applyUpdates players (splitTeams players sg sd sf) = _
  rw [applyUpdates_eq_map _ _ hnd']
  apply List.map_congr_left
  intro p hp
  have hm : p.id ∈ idsOf players := List.mem_map_of_mem _ hp
  have hm' : p.id ∈ updIds (splitTeams players sg sd sf) := by rw [hids]; exact hm
  rw [if_pos hm', findTeam_splitTeams players sg sd sf p.id hm]

/-! ## Pools, permutations, id disjointness -/

/-- Resetting the team field of every entry (used to state that `split`
clears prior manual overrides). -/
def resetTeams (l : List GamePlayer) : List GamePlayer :=
  l.map fun p => { p with team := Team.none }

theorem idsOf_append (l1 l2 : List GamePlayer) :
    idsOf (l1 ++ l2) = idsOf l1 ++ idsOf l2 :=
  List.map_append _ _ _

theorem idsOf_sublist_mem (l1 l2 : List GamePlayer) (h : l1.Sublist l2) (x : Nat)
    (hx : x ∈ idsOf l1) : x ∈ idsOf l2 :=
  (h.map GamePlayer.id).subset hx

theorem pool_ids_nodup (players spool : List GamePlayer) (pr : GamePlayer → Bool)
    (hnd : (idsOf players).Nodup) (hperm : spool.Perm (players.filter pr)) :
    (idsOf spool).Nodup := by
  have h2 : (idsOf (players.filter pr)).Nodup :=
    List.Nodup.sublist ((List.filter_sublist players).map GamePlayer.id) hnd
  exact (List.Perm.nodup_iff (hperm.map GamePlayer.id)).2 h2

theorem id_not_in_pool (players spool : List GamePlayer) (pos : Position)
    (hnd : (idsOf players).Nodup)
    (hperm : spool.Perm (players.filter fun q => decide (q.position = pos)))
    (p : GamePlayer) (hp : p ∈ players) (hpos : ¬ p.position = pos)
    (sl : List GamePlayer) (hsl : sl.Sublist spool) :
    ¬ p.id ∈ idsOf sl := by
  intro hmem
  obtain ⟨q, hq, hqid⟩ := List.mem_map.1 hmem
  have hq2 : q ∈ spool := hsl.subset hq
  have hq3 : q ∈ players.filter fun r => decide (r.position = pos) := hperm.subset hq2
  obtain ⟨hq4, hq5⟩ := List.mem_filter.1 hq3
  have hq6 : q.position = pos := of_decide_eq_true hq5
  have heq : q = p := List.inj_on_of_nodup_map hnd hq4 hp hqid
  exact hpos (heq ▸ hq6)

theorem pool_drop_not_take (spool : List GamePlayer) (k : Nat)
    (hnd : (idsOf spool).Nodup) (x : Nat) (hx : x ∈ idsOf (spool.drop k)) :
    ¬ x ∈ idsOf (spool.take k) := by
  intro hmem
  have hdec : idsOf (spool.take k) ++ idsOf (spool.drop k) = idsOf spool := by
    rw [← idsOf_append, List.take_append_drop]
  rw [← hdec] at hnd
  obtain ⟨-, -, hdisj⟩ := List.nodup_append.1 hnd
  exact hdisj hmem hx

/-! ## Counting ids over slices of a pool -/

theorem countP_ids_slice (l1 sl l2 : List GamePlayer)
    (hnd : (idsOf (l1 ++ (sl ++ l2))).Nodup) :
    List.countP (fun p => decide (p.id ∈ idsOf sl)) (l1 ++ (sl ++ l2)) = sl.length := by
  have hids : idsOf (l1 ++ (sl ++ l2)) = idsOf l1 ++ (idsOf sl ++ idsOf l2) := by
    simp [idsOf]
  rw [hids] at hnd
  obtain ⟨hnd1, hnd23, hdisj⟩ := List.nodup_append.1 hnd
  obtain ⟨hnd2, hnd3, hdisj23⟩ := List.nodup_append.1 hnd23
  rw [List.countP_append, List.countP_append]
  have c1 : List.countP (fun p => decide (p.id ∈ idsOf sl)) l1 = 0 := by
    rw [List.countP_eq_zero]
    intro p hp
    simp only [decide_eq_true_eq]
    intro hmem
    exact hdisj (List.mem_map_of_mem _ hp) (List.mem_append_left _ hmem)
  have c2 : List.countP (fun p => decide (p.id ∈ idsOf sl)) sl = sl.length := by
    rw [List.countP_eq_length]
    intro p hp
    simp only [decide_eq_true_eq]
    exact List.mem_map_of_mem _ hp
  have c3 : List.countP (fun p => decide (p.id ∈ idsOf sl)) l2 = 0 := by
    rw [List.countP_eq_zero]
    intro p hp
    simp only [decide_eq_true_eq]
    intro hmem
    exact hdisj23 hmem (List.mem_map_of_mem _ hp)
  rw [c1, c2, c3]
  omega

theorem countP_pos_mem_slice (players : List GamePlayer) (pos : Position)
    (spool l1 sl l2 : List GamePlayer)
    (hnd : (idsOf players).Nodup)
    (hperm : spool.Perm (players.filter fun q => decide (q.position = pos)))
    (hdec : spool = l1 ++ (sl ++ l2)) :
    List.countP (fun p => decide (p.position = pos ∧ p.id ∈ idsOf sl)) players
      = sl.length := by
  have e1 : List.countP (fun p => decide (p.position = pos ∧ p.id ∈ idsOf sl)) players
      = List.countP (fun p => decide (p.id ∈ idsOf sl))
          (players.filter fun q => decide (q.position = pos)) := by
    rw [List.countP_filter]
    apply List.countP_congr
    intro p _
    simp [decide_eq_true_eq, and_comm]
  rw [e1, ← List.Perm.countP_eq _ hperm, hdec]
  exact countP_ids_slice l1 sl l2
    (by rw [← hdec]; exact pool_ids_nodup players spool _ hnd hperm)

/-! ## The collapsed if-chain of targetTeam -/

theorem ifTeam_eq_blue (x : Nat) (A B : List Nat) :
    ((if x ∈ A then Team.blue else if x ∈ B then Team.red else Team.none) = Team.blue
      ↔ x ∈ A) := by
  by_cases hA : x ∈ A
  · simp [hA]
  · by_cases hB : x ∈ B <;> simp [hA, hB]

theorem ifTeam_eq_red (x : Nat) (A B : List Nat) (hd : x ∈ B → ¬ x ∈ A) :
    ((if x ∈ A then Team.blue else if x ∈ B then Team.red else Team.none) = Team.red
      ↔ x ∈ B) := by
  by_cases hA : x ∈ A
  · simp only [if_pos hA]
    constructor
    · intro h
      exact absurd h (by decide)
    · intro hB
      exact absurd hA (hd hB)
  · by_cases hB : x ∈ B <;> simp [hA, hB]

theorem ifTeam_assigned (x : Nat) (A B : List Nat) :
    (¬ (if x ∈ A then Team.blue else if x ∈ B then Team.red else Team.none) = Team.none
      ↔ (x ∈ B ∨ x ∈ A)) := by
  by_cases hA : x ∈ A <;> by_cases hB : x ∈ B <;> simp [hA, hB]

/-! ## Collapsing targetTeam per position -/

theorem targetTeam_goalie (players sg sd sf : List GamePlayer)
    (hnd : (idsOf players).Nodup)
    (hd : sd.Perm (defendersOf players)) (hf : sf.Perm (forwardsOf players))
    (p : GamePlayer) (hp : p ∈ players) (hpos : p.position = Position.goalie) :
    targetTeam sg sd sf p.id =
      if p.id ∈ idsOf ((sg.drop 1).take 1) then Team.blue
      else if p.id ∈ idsOf (sg.take 1) then Team.red
      else Team.none := by
  have hd' : sd.Perm (players.filter fun q => decide (q.position = Position.defense)) := hd
  have hf' : sf.Perm (players.filter fun q => decide (q.position = Position.forward)) := hf
  have hposf : ¬ p.position = Position.forward := by rw [hpos]; exact fun h => by cases h
  have hposd : ¬ p.position = Position.defense := by rw [hpos]; exact fun h => by cases h
  have h1 : ¬ p.id ∈ idsOf ((sf.drop 6).take 6) :=
    id_not_in_pool players sf Position.forward hnd hf' p hp hposf _
      ((List.take_sublist _ _).trans (List.drop_sublist _ _))
  have h2 : ¬ p.id ∈ idsOf (sf.take 6) :=
    id_not_in_pool players sf Position.forward hnd hf' p hp hposf _
      (List.take_sublist _ _)
  have h3 : ¬ p.id ∈ idsOf ((sd.drop 4).take 4) :=
    id_not_in_pool players sd Position.defense hnd hd' p hp hposd _
      ((List.take_sublist _ _).trans (List.drop_sublist _ _))
  have h4 : ¬ p.id ∈ idsOf (sd.take 4) :=
    id_not_in_pool players sd Position.defense hnd hd' p hp hposd _
      (List.take_sublist _ _)
  unfold targetTeam
  rw [if_neg h1, if_neg h2, if_neg h3, if_neg h4]

theorem targetTeam_defense (players sg sd sf : List GamePlayer)
    (hnd : (idsOf players).Nodup)
    (hg : sg.Perm (goaliesOf players)) (hf : sf.Perm (forwardsOf players))
    (p : GamePlayer) (hp : p ∈ players) (hpos : p.position = Position.defense) :
    targetTeam sg sd sf p.id =
      if p.id ∈ idsOf ((sd.drop 4).take 4) then Team.blue
      else if p.id ∈ idsOf (sd.take 4) then Team.red
      else Team.none := by
  have hg' : sg.Perm (players.filter fun q => decide (q.position = Position.goalie)) := hg
  have hf' : sf.Perm (players.filter fun q => decide (q.position = Position.forward)) := hf
  have hposf : ¬ p.position = Position.forward := by rw [hpos]; exact fun h => by cases h
  have hposg : ¬ p.position = Position.goalie := by rw [hpos]; exact fun h => by cases h
  have h1 : ¬ p.id ∈ idsOf ((sf.drop 6).take 6) :=
    id_not_in_pool players sf Position.forward hnd hf' p hp hposf _
      ((List.take_sublist _ _).trans (List.drop_sublist _ _))
  have h2 : ¬ p.id ∈ idsOf (sf.take 6) :=
    id_not_in_pool players sf Position.forward hnd hf' p hp hposf _
      (List.take_sublist _ _)
  have h5 : ¬ p.id ∈ idsOf ((sg.drop 1).take 1) :=
    id_not_in_pool players sg Position.goalie hnd hg' p hp hposg _
      ((List.take_sublist _ _).trans (List.drop_sublist _ _))
  have h6 : ¬ p.id ∈ idsOf (sg.take 1) :=
    id_not_in_pool players sg Position.goalie hnd hg' p hp hposg _
      (List.take_sublist _ _)
  unfold targetTeam
  rw [if_neg h1, if_neg h2, if_neg h5, if_neg h6]

theorem targetTeam_forward (players sg sd sf : List GamePlayer)
    (hnd : (idsOf players).Nodup)
    (hg : sg.Perm (goaliesOf players)) (hd : sd.Perm (defendersOf players))
    (p : GamePlayer) (hp : p ∈ players) (hpos : p.position = Position.forward) :
    targetTeam sg sd sf p.id =
      if p.id ∈ idsOf ((sf.drop 6).take 6) then Team.blue
      else if p.id ∈ idsOf (sf.take 6) then Team.red
      else Team.none := by
  have hg' : sg.Perm (players.filter fun q => decide (q.position = Position.goalie)) := hg
  have hd' : sd.Perm (players.filter fun q => decide (q.position = Position.defense)) := hd
  have hposd : ¬ p.position = Position.defense := by rw [hpos]; exact fun h => by cases h
  have hposg : ¬ p.position = Position.goalie := by rw [hpos]; exact fun h => by cases h
  have h3 : ¬ p.id ∈ idsOf ((sd.drop 4).take 4) :=
    id_not_in_pool players sd Position.defense hnd hd' p hp hposd _
      ((List.take_sublist _ _).trans (List.drop_sublist _ _))
  have h4 : ¬ p.id ∈ idsOf (sd.take 4) :=
    id_not_in_pool players sd Position.defense hnd hd' p hp hposd _
      (List.take_sublist _ _)
  have h5 : ¬ p.id ∈ idsOf ((sg.drop 1).take 1) :=
    id_not_in_pool players sg Position.goalie hnd hg' p hp hposg _
      ((List.take_sublist _ _).trans (List.drop_sublist _ _))
  have h6 : ¬ p.id ∈ idsOf (sg.take 1) :=
    id_not_in_pool players sg Position.goalie hnd hg' p hp hposg _
      (List.take_sublist _ _)
  unfold targetTeam
  rw [if_neg h3, if_neg h4, if_neg h5, if_neg h6]

/-! ## Team counts per position -/

/-- Number of participants of a given position on a given team (how the
UI counts, e.g. `redTeam.filter(p => p.position === 'goalie')`). -/
def countPos (l : List GamePlayer) (pos : Position) (t : Team) : Nat :=
  (l.filter fun p => decide (p.position = pos ∧ p.team = t)).length

/-- Number of participants assigned to either team. -/
def assignedCount (l : List GamePlayer) : Nat :=
  (l.filter fun p => decide (¬ p.team = Team.none)).length

theorem countPos_eq_countP (l : List GamePlayer) (pos : Position) (t : Team) :
    countPos l pos t
      = List.countP (fun p => decide (p.position = pos ∧ p.team = t)) l :=
  (List.countP_eq_length_filter _ _).symm

theorem assignedCount_eq_countP (l : List GamePlayer) :
    assignedCount l = List.countP (fun p => decide (¬ p.team = Team.none)) l :=
  (List.countP_eq_length_filter _ _).symm

theorem countPos_splitResult (players sg sd sf : List GamePlayer) (pos : Position)
    (t : Team) (hnd : (idsOf players).Nodup) :
    countPos (splitResult players sg sd sf) pos t =
      List.countP (fun p => decide (p.position = pos ∧ targetTeam sg sd sf p.id = t))
        players := by
  rw [countPos_eq_countP, splitResult_eq_map players sg sd sf hnd, List.countP_map]
  rfl

theorem assignedCount_splitResult (players sg sd sf : List GamePlayer)
    (hnd : (idsOf players).Nodup) :
    assignedCount (splitResult players sg sd sf) =
      List.countP (fun p => decide (¬ targetTeam sg sd sf p.id = Team.none)) players := by
  rw [assignedCount_eq_countP, splitResult_eq_map players sg sd sf hnd, List.countP_map]
  rfl

theorem red_count_generic (players sg sd sf : List GamePlayer) (pos : Position)
    (spool : List GamePlayer) (q : Nat)
    (hnd : (idsOf players).Nodup)
    (hperm : spool.Perm (players.filter fun r => decide (r.position = pos)))
    (hcoll : ∀ p ∈ players, p.position = pos →
        targetTeam sg sd sf p.id =
          if p.id ∈ idsOf ((spool.drop q).take q) then Team.blue
          else if p.id ∈ idsOf (spool.take q) then Team.red
          else Team.none) :
    List.countP (fun p => decide (p.position = pos ∧ targetTeam sg sd sf p.id = Team.red))
        players
      = min q spool.length := by
  have hsnd : (idsOf spool).Nodup := pool_ids_nodup players spool _ hnd hperm
  have e : List.countP
        (fun p => decide (p.position = pos ∧ targetTeam sg sd sf p.id = Team.red)) players
      = List.countP (fun p => decide (p.position = pos ∧ p.id ∈ idsOf (spool.take q)))
          players := by
    apply List.countP_congr
    intro p hp
    simp only [decide_eq_true_eq]
    by_cases hpos : p.position = pos
    · have hdisj : p.id ∈ idsOf (spool.take q) → ¬ p.id ∈ idsOf ((spool.drop q).take q) :=
        fun hB hA =>
          pool_drop_not_take spool q hsnd p.id
            (idsOf_sublist_mem _ _ (List.take_sublist _ _) p.id hA) hB
      have hiff := ifTeam_eq_red p.id (idsOf ((spool.drop q).take q))
        (idsOf (spool.take q)) hdisj
      rw [hcoll p hp hpos]
      exact and_congr_right fun _ => hiff
    · constructor
      · intro h
        exact absurd h.1 hpos
      · intro h
        exact absurd h.1 hpos
  rw [e, countP_pos_mem_slice players pos spool [] (spool.take q) (spool.drop q) hnd hperm
    (by simp), List.length_take]

theorem blue_count_generic (players sg sd sf : List GamePlayer) (pos : Position)
    (spool : List GamePlayer) (q : Nat)
    (hnd : (idsOf players).Nodup)
    (hperm : spool.Perm (players.filter fun r => decide (r.position = pos)))
    (hcoll : ∀ p ∈ players, p.position = pos →
        targetTeam sg sd sf p.id =
          if p.id ∈ idsOf ((spool.drop q).take q) then Team.blue
          else if p.id ∈ idsOf (spool.take q) then Team.red
          else Team.none) :
    List.countP (fun p => decide (p.position = pos ∧ targetTeam sg sd sf p.id = Team.blue))
        players
      = min q (spool.length - q) := by
  have e : List.countP
        (fun p => decide (p.position = pos ∧ targetTeam sg sd sf p.id = Team.blue)) players
      = List.countP
          (fun p => decide (p.position = pos ∧ p.id ∈ idsOf ((spool.drop q).take q)))
          players := by
    apply List.countP_congr
    intro p hp
    simp only [decide_eq_true_eq]
    by_cases hpos : p.position = pos
    · have hiff := ifTeam_eq_blue p.id (idsOf ((spool.drop q).take q))
        (idsOf (spool.take q))
      rw [hcoll p hp hpos]
      exact and_congr_right fun _ => hiff
    · constructor
      · intro h
        exact absurd h.1 hpos
      · intro h
        exact absurd h.1 hpos
  rw [e, countP_pos_mem_slice players pos spool (spool.take q) ((spool.drop q).take q)
    ((spool.drop q).drop q) hnd hperm (by rw [List.take_append_drop, List.take_append_drop]),
    List.length_take, List.length_drop]

theorem assigned_count_generic (players sg sd sf : List GamePlayer) (pos : Position)
    (spool : List GamePlayer) (q : Nat)
    (hnd : (idsOf players).Nodup)
    (hperm : spool.Perm (players.filter fun r => decide (r.position = pos)))
    (hcoll : ∀ p ∈ players, p.position = pos →
        targetTeam sg sd sf p.id =
          if p.id ∈ idsOf ((spool.drop q).take q) then Team.blue
          else if p.id ∈ idsOf (spool.take q) then Team.red
          else Team.none) :
    List.countP (fun p => decide (¬ targetTeam sg sd sf p.id = Team.none)
        && decide (p.position = pos)) players
      = min (q + q) spool.length := by
  have e : List.countP (fun p => decide (¬ targetTeam sg sd sf p.id = Team.none)
        && decide (p.position = pos)) players
      = List.countP (fun p => decide (p.position = pos ∧ p.id ∈ idsOf (spool.take (q + q))))
          players := by
    apply List.countP_congr
    intro p hp
    simp only [Bool.and_eq_true, decide_eq_true_eq]
    by_cases hpos : p.position = pos
    · have hiff := ifTeam_assigned p.id (idsOf ((spool.drop q).take q)) (idsOf (spool.take q))
      have hmem : (p.id ∈ idsOf (spool.take (q + q)))
          ↔ (p.id ∈ idsOf (spool.take q) ∨ p.id ∈ idsOf ((spool.drop q).take q)) := by
        rw [List.take_add, idsOf_append, List.mem_append]
      rw [hcoll p hp hpos]
      constructor
      · intro h
        exact ⟨hpos, hmem.2 (hiff.1 h.1)⟩
      · intro h
        exact ⟨hiff.2 (hmem.1 h.2), hpos⟩
    · constructor
      · intro h
        exact absurd h.2 hpos
      · intro h
        exact absurd h.1 hpos
  rw [e, countP_pos_mem_slice players pos spool [] (spool.take (q + q)) (spool.drop (q + q))
    hnd hperm (by simp), List.length_take]

theorem countP_by_position (l : List GamePlayer) (q : GamePlayer → Bool) :
    List.countP q l =
      List.countP (fun p => q p && decide (p.position = Position.goalie)) l +
      List.countP (fun p => q p && decide (p.position = Position.defense)) l +
      List.countP (fun p => q p && decide (p.position = Position.forward)) l := by
  induction l with
  | nil => rfl
  | cons p l ih =>
    rw [List.countP_cons, List.countP_cons, List.countP_cons, List.countP_cons, ih]
    cases hpos : p.position <;> by_cases hq : q p <;> simp [hq, hpos] <;> omega

/-- C3 (amended): after a split, the red team receives `min(quota, pool)`
players of each position, the blue team receives `min(quota, pool − quota)`
(the next slice, which is smaller than `min(quota, pool)` whenever the
pool holds fewer than `quota` players beyond red's slice), each team
stays within its quota (≤1 goalie, ≤4 defenders, ≤6 forwards), and the
total number of assigned players is the sum over positions of
`min(2·quota, pool)`. -/
theorem split_counts (players sg sd sf : List GamePlayer)
    (hnd : (idsOf players).Nodup)
    (hg : sg.Perm (goaliesOf players)) (hd : sd.Perm (defendersOf players))
    (hf : sf.Perm (forwardsOf players)) :
    countPos (splitResult players sg sd sf) Position.goalie Team.red
        = min 1 (goaliesOf players).length ∧
    countPos (splitResult players sg sd sf) Position.goalie Team.blue
        = min 1 ((goaliesOf players).length - 1) ∧
    countPos (splitResult players sg sd sf) Position.defense Team.red
        = min 4 (defendersOf players).length ∧
    countPos (splitResult players sg sd sf) Position.defense Team.blue
        = min 4 ((defendersOf players).length - 4) ∧
    countPos (splitResult players sg sd sf) Position.forward Team.red
        = min 6 (forwardsOf players).length ∧
    countPos (splitResult players sg sd sf) Position.forward Team.blue
        = min 6 ((forwardsOf players).length - 6) ∧
    countPos (splitResult players sg sd sf) Position.goalie Team.red ≤ 1 ∧
    countPos (splitResult players sg sd sf) Position.goalie Team.blue ≤ 1 ∧
    countPos (splitResult players sg sd sf) Position.defense Team.red ≤ 4 ∧
    countPos (splitResult players sg sd sf) Position.defense Team.blue ≤ 4 ∧
    countPos (splitResult players sg sd sf) Position.forward Team.red ≤ 6 ∧
    countPos (splitResult players sg sd sf) Position.forward Team.blue ≤ 6 ∧
    assignedCount (splitResult players sg sd sf)
        = min 2 (goaliesOf players).length + min 8 (defendersOf players).length
          + min 12 (forwardsOf players).length := by
  have hg' : sg.Perm (players.filter fun r => decide (r.position = Position.goalie)) := hg
  have hd' : sd.Perm (players.filter fun r => decide (r.position = Position.defense)) := hd
  have hf' : sf.Perm (players.filter fun r => decide (r.position = Position.forward)) := hf
  have hcollg : ∀ p ∈ players, p.position = Position.goalie →
      targetTeam sg sd sf p.id =
        if p.id ∈ idsOf ((sg.drop 1).take 1) then Team.blue
        else if p.id ∈ idsOf (sg.take 1) then Team.red
        else Team.none :=
    fun p hp hpos => targetTeam_goalie players sg sd sf hnd hd hf p hp hpos
  have hcolld : ∀ p ∈ players, p.position = Position.defense →
      targetTeam sg sd sf p.id =
        if p.id ∈ idsOf ((sd.drop 4).take 4) then Team.blue
        else if p.id ∈ idsOf (sd.take 4) then Team.red
        else Team.none :=
    fun p hp hpos => targetTeam_defense players sg sd sf hnd hg hf p hp hpos
  have hcollf : ∀ p ∈ players, p.position = Position.forward →
      targetTeam sg sd sf p.id =
        if p.id ∈ idsOf ((sf.drop 6).take 6) then Team.blue
        else if p.id ∈ idsOf (sf.take 6) then Team.red
        else Team.none :=
    fun p hp hpos => targetTeam_forward players sg sd sf hnd hg hd p hp hpos
  have hlg : sg.length = (goaliesOf players).length := hg.length_eq
  have hld : sd.length = (defendersOf players).length := hd.length_eq
  have hlf : sf.length = (forwardsOf players).length := hf.length_eq
  have egr : countPos (splitResult players sg sd sf) Position.goalie Team.red
      = min 1 (goaliesOf players).length := by
    rw [countPos_splitResult players sg sd sf _ _ hnd,
      red_count_generic players sg sd sf Position.goalie sg 1 hnd hg' hcollg, hlg]
  have egb : countPos (splitResult players sg sd sf) Position.goalie Team.blue
      = min 1 ((goaliesOf players).length - 1) := by
    rw [countPos_splitResult players sg sd sf _ _ hnd,
      blue_count_generic players sg sd sf Position.goalie sg 1 hnd hg' hcollg, hlg]
  have edr : countPos (splitResult players sg sd sf) Position.defense Team.red
      = min 4 (defendersOf players).length := by
    rw [countPos_splitResult players sg sd sf _ _ hnd,
      red_count_generic players sg sd sf Position.defense sd 4 hnd hd' hcolld, hld]
  have edb : countPos (splitResult players sg sd sf) Position.defense Team.blue
      = min 4 ((defendersOf players).length - 4) := by
    rw [countPos_splitResult players sg sd sf _ _ hnd,
      blue_count_generic players sg sd sf Position.defense sd 4 hnd hd' hcolld, hld]
  have efr : countPos (splitResult players sg sd sf) Position.forward Team.red
      = min 6 (forwardsOf players).length := by
    rw [countPos_splitResult players sg sd sf _ _ hnd,
      red_count_generic players sg sd sf Position.forward sf 6 hnd hf' hcollf, hlf]
  have efb : countPos (splitResult players sg sd sf) Position.forward Team.blue
      = min 6 ((forwardsOf players).length - 6) := by
    rw [countPos_splitResult players sg sd sf _ _ hnd,
      blue_count_generic players sg sd sf Position.forward sf 6 hnd hf' hcollf, hlf]
  have etotal : assignedCount (splitResult players sg sd sf)
      = min 2 (goaliesOf players).length + min 8 (defendersOf players).length
        + min 12 (forwardsOf players).length := by
    rw [assignedCount_splitResult players sg sd sf hnd,
      countP_by_position players (fun p => decide (¬ targetTeam sg sd sf p.id = Team.none)),
      assigned_count_generic players sg sd sf Position.goalie sg 1 hnd hg' hcollg,
      assigned_count_generic players sg sd sf Position.defense sd 4 hnd hd' hcolld,
      assigned_count_generic players sg sd sf Position.forward sf 6 hnd hf' hcollf,
      hlg, hld, hlf]
  refine ⟨egr, egb, edr, edb, efr, efb, ?_, ?_, ?_, ?_, ?_, ?_, etotal⟩
  · rw [egr]; exact Nat.min_le_left _ _
  · rw [egb]; exact Nat.min_le_left _ _
  · rw [edr]; exact Nat.min_le_left _ _
  · rw [edb]; exact Nat.min_le_left _ _
  · rw [efr]; exact Nat.min_le_left _ _
  · rw [efb]; exact Nat.min_le_left _ _

/-- C3 counterexample: with one goalie and one forward signed up (a
valid shuffle outcome of each pool), the blue team ends with 0 goalies,
not `min(available, quota) = min(1, 1) = 1`: the blue slice starts only
after red's, so a team's count is not `min(available, quota)` of the
whole pool. -/
theorem split_counts_claim_counterexample :
    (idsOf [gary, bob]).Nodup ∧
    ([gary] : List GamePlayer).Perm (goaliesOf [gary, bob]) ∧
    ([] : List GamePlayer).Perm (defendersOf [gary, bob]) ∧
    ([bob] : List GamePlayer).Perm (forwardsOf [gary, bob]) ∧
    countPos (splitResult [gary, bob] [gary] [] [bob]) Position.goalie Team.blue = 0 ∧
    ¬ countPos (splitResult [gary, bob] [gary] [] [bob]) Position.goalie Team.blue
        = min (goaliesOf [gary, bob]).length 1 :=
  ⟨by decide, by decide, by decide, by decide, by decide, by decide⟩

/-- C3 amended witness: on the concrete two-player session the red team
gets `min(1, 1) = 1` goalie. -/
theorem split_counts_witness :
    countPos (splitResult [gary, bob] [gary] [] [bob]) Position.goalie Team.red
      = min 1 (goaliesOf [gary, bob]).length :=
  (split_counts [gary, bob] [gary] [] [bob] (by decide) (by decide) (by decide)
    (by decide)).1

/-! ## C4: reset semantics of split -/

theorem idsOf_resetTeams (l : List GamePlayer) : idsOf (resetTeams l) = idsOf l := by
  unfold idsOf resetTeams
  rw [List.map_map]
  congr 1

theorem resetTeams_take (l : List GamePlayer) (m : Nat) :
    (resetTeams l).take m = resetTeams (l.take m) := by
  simp [resetTeams]

theorem resetTeams_drop (l : List GamePlayer) (m : Nat) :
    (resetTeams l).drop m = resetTeams (l.drop m) := by
  simp [resetTeams]

theorem targetTeam_resetTeams (sg sd sf : List GamePlayer) (pid : Nat) :
    targetTeam (resetTeams sg) (resetTeams sd) (resetTeams sf) pid
      = targetTeam sg sd sf pid := by
  unfold targetTeam
  simp only [resetTeams_drop, resetTeams_take, idsOf_resetTeams]

/-- C4: the split first resets every participant's team (its outcome is
the same whether or not the participants carried prior manual
overrides), never directs one id to both teams, and leaves every
participant beyond `2·quota` of their position pool unassigned. -/
theorem split_resets_and_slices (players sg sd sf : List GamePlayer)
    (hnd : (idsOf players).Nodup)
    (hg : sg.Perm (goaliesOf players)) (hd : sd.Perm (defendersOf players))
    (hf : sf.Perm (forwardsOf players)) :
    splitResult players sg sd sf =
      splitResult (resetTeams players) (resetTeams sg) (resetTeams sd) (resetTeams sf) ∧
    (∀ pid : Nat,
      ¬ (pid ∈ idsOf ((splitResult players sg sd sf).filter
            fun p => decide (p.team = Team.red)) ∧
         pid ∈ idsOf ((splitResult players sg sd sf).filter
            fun p => decide (p.team = Team.blue)))) ∧
    (∀ r ∈ splitResult players sg sd sf,
      (r.position = Position.goalie → r.id ∈ idsOf (sg.drop 2) → r.team = Team.none) ∧
      (r.position = Position.defense → r.id ∈ idsOf (sd.drop 8) → r.team = Team.none) ∧
      (r.position = Position.forward → r.id ∈ idsOf (sf.drop 12) → r.team = Team.none)) := by
  have hnd2 : (idsOf (resetTeams players)).Nodup := by
    rw [idsOf_resetTeams]
    exact hnd
  refine ⟨?_, ?_, ?_⟩
  · rw [splitResult_eq_map players sg sd sf hnd, splitResult_eq_map _ _ _ _ hnd2]
    simp only [targetTeam_resetTeams]
    unfold resetTeams
    rw [List.map_map]
    apply List.map_congr_left
    intro p _
    rfl
  · intro pid hmem
    obtain ⟨h1, h2⟩ := hmem
    obtain ⟨r1, hr1, hid1⟩ := List.mem_map.1 h1
    obtain ⟨hr1m, hr1t⟩ := List.mem_filter.1 hr1
    obtain ⟨r2, hr2, hid2⟩ := List.mem_map.1 h2
    obtain ⟨hr2m, hr2t⟩ := List.mem_filter.1 hr2
    rw [splitResult_eq_map players sg sd sf hnd] at hr1m hr2m
    obtain ⟨p1, hp1, hpe1⟩ := List.mem_map.1 hr1m
    obtain ⟨p2, hp2, hpe2⟩ := List.mem_map.1 hr2m
    subst hpe1
    subst hpe2
    simp only [decide_eq_true_eq] at hr1t hr2t
    have e1 : targetTeam sg sd sf pid = Team.red := by
      rw [← hid1]
      exact hr1t
    have e2 : targetTeam sg sd sf pid = Team.blue := by
      rw [← hid2]
      exact hr2t
    rw [e1] at e2
    exact absurd e2 (by decide)
  · intro r hr
    rw [splitResult_eq_map players sg sd sf hnd] at hr
    obtain ⟨p, hp, hpe⟩ := List.mem_map.1 hr
    subst hpe
    have hsgnd : (idsOf sg).Nodup := pool_ids_nodup players sg _ hnd
      (show sg.Perm (players.filter fun r => decide (r.position = Position.goalie)) from hg)
    have hsdnd : (idsOf sd).Nodup := pool_ids_nodup players sd _ hnd
      (show sd.Perm (players.filter fun r => decide (r.position = Position.defense)) from hd)
    have hsfnd : (idsOf sf).Nodup := pool_ids_nodup players sf _ hnd
      (show sf.Perm (players.filter fun r => decide (r.position = Position.forward)) from hf)
    refine ⟨?_, ?_, ?_⟩
    · intro hpos hid
      show targetTeam sg sd sf p.id = Team.none
      have hnt : ¬ p.id ∈ idsOf (sg.take 2) := pool_drop_not_take sg 2 hsgnd p.id hid
      have hsplit : idsOf (sg.take 2) = idsOf (sg.take 1) ++ idsOf ((sg.drop 1).take 1) := by
        rw [show (2 : Nat) = 1 + 1 from rfl, List.take_add, idsOf_append]
      rw [targetTeam_goalie players sg sd sf hnd hd hf p hp hpos]
      rw [if_neg (fun hx => hnt (by rw [hsplit]; exact List.mem_append_right _ hx)),
        if_neg (fun hx => hnt (by rw [hsplit]; exact List.mem_append_left _ hx))]
    · intro hpos hid
      show targetTeam sg sd sf p.id = Team.none
      have hnt : ¬ p.id ∈ idsOf (sd.take 8) := pool_drop_not_take sd 8 hsdnd p.id hid
      have hsplit : idsOf (sd.take 8) = idsOf (sd.take 4) ++ idsOf ((sd.drop 4).take 4) := by
        rw [show (8 : Nat) = 4 + 4 from rfl, List.take_add, idsOf_append]
      rw [targetTeam_defense players sg sd sf hnd hg hf p hp hpos]
      rw [if_neg (fun hx => hnt (by rw [hsplit]; exact List.mem_append_right _ hx)),
        if_neg (fun hx => hnt (by rw [hsplit]; exact List.mem_append_left _ hx))]
    · intro hpos hid
      show targetTeam sg sd sf p.id = Team.none
      have hnt : ¬ p.id ∈ idsOf (sf.take 12) := pool_drop_not_take sf 12 hsfnd p.id hid
      have hsplit : idsOf (sf.take 12) = idsOf (sf.take 6) ++ idsOf ((sf.drop 6).take 6) := by
        rw [show (12 : Nat) = 6 + 6 from rfl, List.take_add, idsOf_append]
      rw [targetTeam_forward players sg sd sf hnd hg hd p hp hpos]
      rw [if_neg (fun hx => hnt (by rw [hsplit]; exact List.mem_append_right _ hx)),
        if_neg (fun hx => hnt (by rw [hsplit]; exact List.mem_append_left _ hx))]

/-- C4 witness: on a concrete session with prior manual overrides the
split gives the same outcome as on the override-free session. -/
theorem split_resets_and_slices_witness :
    splitResult [⟨3, "Gary", Position.goalie, Team.blue⟩, ⟨2, "Bob", Position.forward, Team.red⟩]
        [⟨3, "Gary", Position.goalie, Team.blue⟩] [] [⟨2, "Bob", Position.forward, Team.red⟩] =
      splitResult
        (resetTeams [⟨3, "Gary", Position.goalie, Team.blue⟩,
          ⟨2, "Bob", Position.forward, Team.red⟩])
        (resetTeams [⟨3, "Gary", Position.goalie, Team.blue⟩])
        (resetTeams ([] : List GamePlayer))
        (resetTeams [⟨2, "Bob", Position.forward, Team.red⟩]) :=
  (split_resets_and_slices
    [⟨3, "Gary", Position.goalie, Team.blue⟩, ⟨2, "Bob", Position.forward, Team.red⟩]
    [⟨3, "Gary", Position.goalie, Team.blue⟩] [] [⟨2, "Bob", Position.forward, Team.red⟩]
    (by decide) (by decide) (by decide) (by decide)).1
